import Mathlib

/-!
Verification of the sigapp-api-gateway JWT core (src/src/jwt.ts) and the
surrounding gateway glue (src/src/index.ts, src/src/helpers/http.ts, and the
auth helper module).  The TypeScript source is shallowly embedded below:
JavaScript strings become Lean `String`s, JSON values become the `Json`
inductive, the in-memory JWKS cache becomes an explicit `Option JWKS` value
threaded through calls, and the network becomes an explicit
`String → FetchResponse` function together with a log of the URLs fetched.
The cryptographic primitives of the `jose` library (HMAC / public-key
signature checks) are opaque oracles carried in a `CryptoModel`; everything
around them (compact-JWS splitting, base64url decoding, header parsing,
algorithm gating, `exp` validation, error messages) is modelled explicitly.
-/

set_option maxHeartbeats 1000000

namespace SigappGateway

/-- JSON values as produced by `JSON.parse`.  Numbers are modelled as
integers: JWT headers and claim sets in this system carry only integral
numbers (`exp` epoch seconds), so the parser below rejects fractional and
exponent forms instead of approximating them. -/
inductive Json where
  | null
  | bool (b : Bool)
  | num (n : Int)
  | str (s : String)
  | arr (xs : List Json)
  | obj (fields : List (String × Json))

/-- Association-list model of a JavaScript object: assignment overwrites an
existing key, otherwise appends (insertion order preserved, keys unique). -/
def recordSet {α : Type} (r : List (String × α)) (k : String) (v : α) :
    List (String × α) :=
  if r.any (fun p => p.1 = k) then
    r.map (fun p => if p.1 = k then (k, v) else p)
  else
    r ++ [(k, v)]

/-- Property lookup on the association-list model of a JavaScript object. -/
def recordGet {α : Type} (r : List (String × α)) (k : String) : Option α :=
  Option.map Prod.snd (r.find? (fun p => p.1 = k))

/-- JavaScript truthiness of a JSON value. -/
def jsTruthy : Json → Bool
  | .null => false
  | .bool b => b
  | .num n => n != 0
  | .str s => s != ""
  | .arr _ => true
  | .obj _ => true

/-- Truthiness of a possibly-undefined (`Option`) JavaScript value. -/
def jsTruthyOpt : Option Json → Bool
  | none => false
  | some v => jsTruthy v

/-- JavaScript `String(v)` coercion of a JSON value.  Array and object
coercion is approximated (nested `null`s inside arrays stringify as "null"
here but as "" in JavaScript); the theorems below only apply it to strings
and numbers, where the model is exact. -/
def jsToString : Json → String
  | .null => "null"
  | .bool true => "true"
  | .bool false => "false"
  | .num n => toString n
  | .str s => s
  | .arr xs => String.intercalate "," (xs.map fun x => jsToStringAux x)
  | .obj _ => "[object Object]"
where
  jsToStringAux : Json → String
    | .null => "null"
    | .bool true => "true"
    | .bool false => "false"
    | .num n => toString n
    | .str s => s
    | .arr _ => ""
    | .obj _ => "[object Object]"

/-- Property access `v[k]` / destructuring `const { k } = v` on a JSON
value: objects look the key up, every other non-null value yields
`undefined` (`none`). -/
def jsonLookup : Json → String → Option Json
  | .obj fields, k => recordGet fields k
  | _, _ => none

/-- JS strict equality `v === s` of a possibly-undefined value against a
string literal. -/
def jsStrictEqStr : Option Json → String → Bool
  | some (.str s), t => s = t
  | _, _ => false

/-- `v.isNull` marker used to model the `TypeError` thrown by destructuring
`null`. -/
def Json.isNull : Json → Bool
  | .null => true
  | _ => false

/-! ### JavaScript string primitives

`String.prototype.split`, first-occurrence `replace`, `trim`, `includes`
and `startsWith` are modelled by structural recursion over character
lists so that every concrete computation reduces inside the kernel. -/

/-- Whether `pat` is an initial run of `cs`. -/
def hasLead : List Char → List Char → Bool
  | _, [] => true
  | [], _ :: _ => false
  | c :: cs, p :: ps => c = p && hasLead cs ps

/-- `s.startsWith(pat)`. -/
def strLeads (s pat : String) : Bool :=
  hasLead s.toList pat.toList

/-- Splitting worker: scans `cs` for occurrences of `pat`, fuel-bounded by
the input length (each step consumes at least one character). -/
def splitListAux : Nat → List Char → List Char → List Char → List (List Char)
  | 0, _, acc, _ => [acc.reverse]
  | fuel + 1, cs, acc, pat =>
    if hasLead cs pat then
      acc.reverse :: splitListAux fuel (cs.drop pat.length) [] pat
    else
      match cs with
      | [] => [acc.reverse]
      | c :: rest => splitListAux fuel rest (c :: acc) pat

/-- `s.split(sep)` for a non-empty string separator. -/
def jsSplit (s sep : String) : List String :=
  (splitListAux (s.length + 1) s.toList [] sep.toList).map String.mk

/-- JS whitespace trimmed by `trim` (ASCII forms; the exotic Unicode space
characters are outside the model). -/
def jsWsChar (c : Char) : Bool :=
  c = ' ' ∨ c = '\t' ∨ c = '\n' ∨ c = '\r' ∨ c = '\x0b' ∨ c = '\x0c'

/-- `s.trim()`. -/
def jsTrim (s : String) : String :=
  String.mk (((s.toList.dropWhile jsWsChar).reverse.dropWhile jsWsChar).reverse)

/-! ### base64 (`atob`) model

`atob` implements WHATWG forgiving-base64: ASCII whitespace is stripped,
up to two trailing `=` padding characters are removed when the length is a
multiple of four, a remainder of one sextet is an error, and any remaining
character outside the base64 alphabet is an error. -/

/-- Value of a base64 alphabet character. -/
def b64CharVal (c : Char) : Option Nat :=
  if 'A' ≤ c ∧ c ≤ 'Z' then some (c.toNat - 65)
  else if 'a' ≤ c ∧ c ≤ 'z' then some (c.toNat - 97 + 26)
  else if '0' ≤ c ∧ c ≤ '9' then some (c.toNat - 48 + 52)
  else if c = '+' then some 62
  else if c = '/' then some 63
  else none

/-- ASCII whitespace stripped by forgiving-base64. -/
def b64Ws (c : Char) : Bool :=
  c = ' ' ∨ c = '\t' ∨ c = '\n' ∨ c = '\x0c' ∨ c = '\r'

/-- Remove up to two trailing padding characters. -/
def b64StripPad (cs : List Char) : List Char :=
  match cs.reverse with
  | '=' :: '=' :: r => r.reverse
  | '=' :: r => r.reverse
  | _ => cs

/-- Convert a list of sextet values to bytes, discarding leftover bits of a
trailing partial group (forgiving-base64 discards them). -/
def b64SixToBytes : List Nat → List Nat
  | a :: b :: c :: d :: rest =>
    (a * 4 + b / 16) :: ((b % 16) * 16 + c / 4) :: ((c % 4) * 64 + d) ::
      b64SixToBytes rest
  | [a, b] => [a * 4 + b / 16]
  | [a, b, c] => [a * 4 + b / 16, (b % 16) * 16 + c / 4]
  | _ => []

/-- Modelled message of the `InvalidCharacterError` thrown by `atob`; the
exact runtime text varies by engine but never contains any of the
substrings the gateway error handler matches on. -/
def atobErrMsg : String := "The string to be decoded is not correctly encoded."

/-- `atob` on a JavaScript string; the decoded bytes become a string of
code points 0–255, exactly as in JavaScript. -/
def atobDecode (s : String) : Except String String :=
  let cs := s.toList.filter (fun c => ¬ b64Ws c)
  let cs := if cs.length % 4 = 0 then b64StripPad cs else cs
  if cs.length % 4 = 1 then .error atobErrMsg
  else
    match cs.mapM b64CharVal with
    | none => .error atobErrMsg
    | some vals => .ok (String.mk ((b64SixToBytes vals).map Char.ofNat))

/-! ### `JSON.parse` model

A fueled recursive-descent parser for JSON.  Duplicate object keys keep the
last occurrence (as `JSON.parse` does).  Restrictions relative to the real
parser, none of which the verified claims exercise: numbers must be
integers, and `\u` escapes in the surrogate range are rejected. -/

/-- JSON insignificant whitespace. -/
def jsonWsChar (c : Char) : Bool :=
  c = ' ' ∨ c = '\t' ∨ c = '\n' ∨ c = '\r'

/-- Skip JSON whitespace. -/
def skipJsonWs : List Char → List Char
  | c :: cs => if jsonWsChar c then skipJsonWs cs else c :: cs
  | [] => []

/-- Hex digit value. -/
def hexVal (c : Char) : Option Nat :=
  if '0' ≤ c ∧ c ≤ '9' then some (c.toNat - 48)
  else if 'a' ≤ c ∧ c ≤ 'f' then some (c.toNat - 97 + 10)
  else if 'A' ≤ c ∧ c ≤ 'F' then some (c.toNat - 65 + 10)
  else none

/-- Parse the body of a JSON string (opening quote already consumed). -/
def pJsonString : Nat → List Char → List Char → Option (String × List Char)
  | 0, _, _ => none
  | fuel + 1, acc, cs =>
    match cs with
    | [] => none
    | '"' :: rest => some (String.mk acc.reverse, rest)
    | '\\' :: e :: rest =>
      match e with
      | '"' => pJsonString fuel ('"' :: acc) rest
      | '\\' => pJsonString fuel ('\\' :: acc) rest
      | '/' => pJsonString fuel ('/' :: acc) rest
      | 'b' => pJsonString fuel (Char.ofNat 8 :: acc) rest
      | 'f' => pJsonString fuel (Char.ofNat 12 :: acc) rest
      | 'n' => pJsonString fuel ('\n' :: acc) rest
      | 'r' => pJsonString fuel ('\r' :: acc) rest
      | 't' => pJsonString fuel ('\t' :: acc) rest
      | 'u' =>
        match rest with
        | a :: b :: c :: d :: rest2 =>
          match hexVal a, hexVal b, hexVal c, hexVal d with
          | some ha, some hb, some hc, some hd =>
            let code := ((ha * 16 + hb) * 16 + hc) * 16 + hd
            if 0xD800 ≤ code ∧ code ≤ 0xDFFF then none
            else pJsonString fuel (Char.ofNat code :: acc) rest2
          | _, _, _, _ => none
        | _ => none
      | _ => none
    | c :: rest =>
      if c.toNat < 0x20 then none else pJsonString fuel (c :: acc) rest

/-- Span of leading decimal digits. -/
def pDigits : List Char → List Char × List Char
  | c :: cs =>
    if '0' ≤ c ∧ c ≤ '9' then
      let (ds, rest) := pDigits cs
      (c :: ds, rest)
    else ([], c :: cs)
  | [] => ([], [])

/-- Numeric value of a digit list. -/
def digitsVal (ds : List Char) : Nat :=
  ds.foldl (fun acc c => acc * 10 + (c.toNat - 48)) 0

/-- Parse a JSON number (integers only; a following `.`, `e` or `E` makes
the parse fail, see the module restriction note). -/
def pJsonNumber (cs : List Char) : Option (Int × List Char) :=
  let (neg, cs1) := match cs with
    | '-' :: rest => (true, rest)
    | _ => (false, cs)
  match pDigits cs1 with
  | ([], _) => none
  | (d :: ds, rest) =>
    if d = '0' ∧ ds ≠ [] then none
    else
      match rest with
      | '.' :: _ => none
      | 'e' :: _ => none
      | 'E' :: _ => none
      | _ =>
        let v : Int := Int.ofNat (digitsVal (d :: ds))
        some (if neg then -v else v, rest)

mutual

/-- Parse one JSON value. -/
def pJsonVal : Nat → List Char → Option (Json × List Char)
  | 0, _ => none
  | fuel + 1, cs =>
    match skipJsonWs cs with
    | '{' :: rest =>
      (match skipJsonWs rest with
       | '}' :: rest2 => some (Json.obj [], rest2)
       | _ => pJsonMembers fuel [] rest)
    | '[' :: rest =>
      (match skipJsonWs rest with
       | ']' :: rest2 => some (Json.arr [], rest2)
       | _ => pJsonElems fuel [] rest)
    | '"' :: rest =>
      (match pJsonString fuel [] rest with
       | some (s, rest2) => some (Json.str s, rest2)
       | none => none)
    | 't' :: 'r' :: 'u' :: 'e' :: rest => some (Json.bool true, rest)
    | 'f' :: 'a' :: 'l' :: 's' :: 'e' :: rest => some (Json.bool false, rest)
    | 'n' :: 'u' :: 'l' :: 'l' :: rest => some (Json.null, rest)
    | cs2 =>
      (match pJsonNumber cs2 with
       | some (n, rest) => some (Json.num n, rest)
       | none => none)

/-- Parse the members of a JSON object (positioned at a key). -/
def pJsonMembers (fuel : Nat) (acc : List (String × Json)) (cs : List Char) :
    Option (Json × List Char) :=
  match fuel with
  | 0 => none
  | fuel + 1 =>
    match skipJsonWs cs with
    | '"' :: rest =>
      (match pJsonString fuel [] rest with
       | some (k, rest2) =>
         (match skipJsonWs rest2 with
          | ':' :: rest3 =>
            (match pJsonVal fuel rest3 with
             | some (v, rest4) =>
               let acc2 := recordSet acc k v
               (match skipJsonWs rest4 with
                | ',' :: rest5 => pJsonMembers fuel acc2 rest5
                | '}' :: rest5 => some (Json.obj acc2, rest5)
                | _ => none)
             | none => none)
          | _ => none)
       | none => none)
    | _ => none

/-- Parse the elements of a JSON array (positioned at a value). -/
def pJsonElems (fuel : Nat) (acc : List Json) (cs : List Char) :
    Option (Json × List Char) :=
  match fuel with
  | 0 => none
  | fuel + 1 =>
    match pJsonVal fuel cs with
    | some (v, rest) =>
      (match skipJsonWs rest with
       | ',' :: rest2 => pJsonElems fuel (acc ++ [v]) rest2
       | ']' :: rest2 => some (Json.arr (acc ++ [v]), rest2)
       | _ => none)
    | none => none

end

/-- Modelled `SyntaxError` message of `JSON.parse`; the V8 text additionally
echoes a short input snippet, which no claim below depends on. -/
def jsonParseErrMsg : String := "Unexpected token in JSON"

/-- `JSON.parse` on a JavaScript string. -/
def jsonParse (s : String) : Except String Json :=
  match pJsonVal (s.length + 1) s.toList with
  | some (v, rest) =>
    if (skipJsonWs rest).isEmpty then .ok v else .error jsonParseErrMsg
  | none => .error jsonParseErrMsg

/-! ### base64url segment decoding (src/src/jwt.ts lines 76-81)

`verifyJwt` restores the standard base64 alphabet with two global regex
replacements, appends padding to a multiple of four, and feeds the result
to `atob` and `JSON.parse`.  The `jose` library decodes its segments with
the same replace-then-`atob` pipeline (without explicit padding, which
forgiving-base64 also accepts), so the same function models both. -/

/-- The two global regex replacements of src/src/jwt.ts line 76 (dash to
plus, underscore to slash) plus the padding computation of line 77. -/
def jsB64urlNormalize (s : String) : String :=
  let b := s.toList.map (fun c => if c = '-' then '+' else if c = '_' then '/' else c)
  String.mk (b ++ List.replicate ((4 - b.length % 4) % 4) '=')

/-- Decode one dot-separated token segment to a JSON value:
`JSON.parse(atob(normalize(seg)))`. -/
def decodeB64urlJson (seg : String) : Except String Json :=
  match atobDecode (jsB64urlNormalize seg) with
  | .error m => .error m
  | .ok txt => jsonParse txt

/-! ### Key Cache (src/src/jwt.ts `getJWKS`, lines 3-61)

`CryptoKey` handles are opaque and modelled as `Nat`.  The module-level
`cachedJWK` variable is threaded explicitly as an `Option JWKS`.  The
result of `importJWK(key, key.alg)` cannot be computed inside the model,
so each JWK entry of a fetch response carries its import outcome as data:
the call throws, returns a non-`CryptoKey` value (jose returns a
`Uint8Array` for `oct` keys), or yields a `CryptoKey`. -/

/-- A JWKS mapping from key-id strings to imported key handles. -/
def JWKS : Type := List (String × Nat)

/-- Outcome of `importJWK` for one JWK entry. -/
inductive ImportOutcome where
  | throws (msg : String)
  | notCryptoKey
  | ok (key : Nat)

/-- One entry of the `keys` array of a JWKS response.  A missing `kid`
(`key.kid!` is `undefined`) is stored under the property key
`"undefined"`, as JavaScript record assignment does. -/
structure JWKEntry where
  kid : Option String
  alg : Option String
  imports : ImportOutcome

/-- Shape of the response `fetch(jwkUrl)` produces, after `res.json()`:
a success flag and status for the `res.ok` check, and the `keys` field
(`none` models a body with no `keys` array). -/
structure FetchResponse where
  ok : Bool
  status : Nat
  statusText : String
  keys : Option (List JWKEntry)

/-- Record key under which an entry is stored: `jwks[key.kid!]`. -/
def kidKey : Option String → String
  | some s => s
  | none => "undefined"

/-- The key-import loop of `getJWKS` (src/src/jwt.ts lines 34-51): each
entry is imported in order; a throw or a non-`CryptoKey` result aborts the
whole loop with an error. -/
def importKeys : List JWKEntry → JWKS → Except String JWKS
  | [], acc => .ok acc
  | k :: rest, acc =>
    match k.imports with
    | .throws m => .error m
    | .notCryptoKey => .error "Invalid key type returned by importJWK"
    | .ok ck => importKeys rest (recordSet acc (kidKey k.kid) ck)

/-- `getJWKS(jwkUrl)` (src/src/jwt.ts lines 5-61).  Returns the result,
the new value of the module-level `cachedJWK`, and the list of URLs
fetched during the call. -/
def getJWKS (fetchFn : String → FetchResponse) (cachedJWK : Option JWKS)
    (jwkUrl : String) : Except String JWKS × Option JWKS × List String :=
  match cachedJWK with
  | some c => (.ok c, some c, [])
  | none =>
    let res := fetchFn jwkUrl
    if !res.ok then
      let st := res.status
      let stx := res.statusText
      (.error s!"Failed to fetch JWKS: {st} {stx}", none, [jwkUrl])
    else
      match res.keys with
      | none => (.error "No keys found", none, [jwkUrl])
      | some ks =>
        if ks.isEmpty then (.error "No keys found", none, [jwkUrl])
        else
          match importKeys ks [] with
          | .error e => (.error e, none, [jwkUrl])
          | .ok jwks => (.ok jwks, some jwks, [jwkUrl])

/-! ### The jose `jwtVerify` model

`jwtVerify(token, key, options)` of the jose library: split the compact
JWS, decode and validate the protected header, honour the `algorithms`
option, check key/algorithm compatibility, verify the signature, decode
the payload, and validate the `exp` claim against the current time.
The two signature checks are opaque oracles; `now` is the evaluation
time in epoch seconds.  Claim validations other than `exp` (`nbf`, `iat`)
are not modelled — no token in this development carries them.  Error
messages are fixed modelled texts standing for the jose originals; like
the originals they contain none of the substrings the gateway error
handler matches on (in particular jose reports expiry as an "exp" claim
timestamp check failure, a text without the word "expired"). -/

/-- Opaque cryptographic model: HMAC verification of a whole token against
secret bytes, public-key verification against an imported key handle, and
the current epoch-seconds time. -/
structure CryptoModel where
  hsSigOk : String → String → Bool
  pkSigOk : String → Nat → Bool
  now : Int

/-- Key material passed to `jwtVerify`: `TextEncoder`-encoded secret bytes
or an imported `CryptoKey`. -/
inductive KeyMaterial where
  | secretBytes (secret : String)
  | cryptoKey (key : Nat)

def joseCompactMsg : String := "Invalid Compact JWS"
def joseHeaderInvalidMsg : String := "Invalid Token or Protected Header formatting"
def joseAlgMissingMsg : String := "JWS alg (Algorithm) Header Parameter missing or invalid"
def joseAlgNotAllowedMsg : String := "alg (Algorithm) Header Parameter value not allowed"
def joseKeyTypeMsg : String := "Key must be of type CryptoKey."
def joseSigFailMsg : String := "signature verification failed"
def joseClaimsNotObjMsg : String := "JWT Claims Set must be a top-level JSON object"
def joseExpNumMsg : String := "exp claim must be a number"
def joseExpFailMsg : String := "exp claim timestamp check failed"

/-- Extract and validate the `alg` of a decoded protected header. -/
def joseHeaderAlg (hjson : Json) : Except String String :=
  match hjson with
  | .obj hf =>
    (match recordGet hf "alg" with
     | some (.str a) => if a = "" then .error joseAlgMissingMsg else .ok a
     | _ => .error joseAlgMissingMsg)
  | _ => .error joseHeaderInvalidMsg

/-- jose JWT claim-set validation: the payload must be a JSON object and a
present `exp` must be a number strictly in the future (jose fails when
`exp <= now`). -/
def joseValidateClaims (now : Int) (pjson : Json) : Except String Json :=
  match pjson with
  | .obj pf =>
    (match recordGet pf "exp" with
     | none => .ok (Json.obj pf)
     | some (.num e) =>
       if e ≤ now then .error joseExpFailMsg else .ok (Json.obj pf)
     | some _ => .error joseExpNumMsg)
  | _ => .error joseClaimsNotObjMsg

/-- Payload decoding step of `jwtVerify`: base64url-decode the second
segment and validate the claim set. -/
def josePayloadStep (cm : CryptoModel) (p : String) : Except String Json :=
  match decodeB64urlJson p with
  | .error _ => .error joseClaimsNotObjMsg
  | .ok pj => joseValidateClaims cm.now pj

/-- Signature step of `jwtVerify`: secret bytes are only usable for HS
algorithms; then the matching oracle decides the signature. -/
def joseSigStep (cm : CryptoModel) (token : String) (km : KeyMaterial)
    (alg : String) (p : String) : Except String Json :=
  match km with
  | .secretBytes sec =>
    if strLeads alg "HS" then
      if cm.hsSigOk token sec then josePayloadStep cm p
      else .error joseSigFailMsg
    else .error joseKeyTypeMsg
  | .cryptoKey k =>
    if cm.pkSigOk token k then josePayloadStep cm p
    else .error joseSigFailMsg

/-- The jose `jwtVerify` model. -/
def jwtVerifyModel (cm : CryptoModel) (token : String) (km : KeyMaterial)
    (algs : Option (List String)) : Except String Json :=
  match jsSplit token "." with
  | [h, p, _sig] =>
    (match decodeB64urlJson h with
     | .error _ => .error joseHeaderInvalidMsg
     | .ok hjson =>
       (match joseHeaderAlg hjson with
        | .error m => .error m
        | .ok a =>
          (match algs with
           | some l =>
             if l.contains a then joseSigStep cm token km a p
             else .error joseAlgNotAllowedMsg
           | none => joseSigStep cm token km a p)))
  | _ => .error joseCompactMsg

/-! ### Token Verifier (src/src/jwt.ts `verifyJwt`, lines 64-168) -/

/-- `algorithms: alg ? [alg] : undefined` (src/src/jwt.ts line 96): a
truthy string becomes a one-element list; a truthy non-string value makes
jose reject the option with a `TypeError` (modelled as an error); a falsy
or absent value leaves the option undefined. -/
def algorithmsOption : Option Json → Except String (Option (List String))
  | none => .ok none
  | some v =>
    if jsTruthy v then
      match v with
      | .str s => .ok (some [s])
      | _ => .error "algorithms option must be an array of strings"
    else .ok none

/-- Stage 1: `jwtVerify(token, secretKeyBytes, { algorithms })`
(src/src/jwt.ts lines 90-110). -/
def stage1Verify (cm : CryptoModel) (token secret : String)
    (alg? : Option Json) : Except String Json :=
  match algorithmsOption alg? with
  | .error m => .error m
  | .ok algs => jwtVerifyModel cm token (.secretBytes secret) algs

/-- The stage-2 gate `if (kid && alg !== "HS256")` of src/src/jwt.ts
line 117. -/
def stage2Condition (kid? alg? : Option Json) : Bool :=
  jsTruthyOpt kid? && ! jsStrictEqStr alg? "HS256"

/-- Every error that escapes the inner `try` of `verifyJwt` is re-wrapped
by the `decodeError` handler (src/src/jwt.ts lines 157-161). -/
def wrapJwtError (m : String) : String := "JWT verification failed: " ++ m

/-- Modelled `TypeError` message of destructuring a `null` header. -/
def destructureNullMsg : String := "Cannot destructure property kid of null"

/-- Terminal message when stage 1 failed and stage 2 is not applicable
(src/src/jwt.ts line 152). -/
def noUsableMsg : String :=
  "Token verification failed. Ensure the SUPABASE_ANON_KEY is correct."

/-- `verifyJwt({ token, jwkUrl, jwtSecret })` (src/src/jwt.ts lines
64-168).  Returns the verification result, the new `cachedJWK` value, and
the list of URLs fetched during the call. -/
def verifyJwt (cm : CryptoModel) (fetchFn : String → FetchResponse)
    (cachedJWK : Option JWKS) (token jwkUrl jwtSecret : String) :
    Except String Json × Option JWKS × List String :=
  let headerB64 := (jsSplit token ".").headD ""
  if headerB64 = "" then
    (.error (wrapJwtError "Invalid token format"), cachedJWK, [])
  else
    match decodeB64urlJson headerB64 with
    | .error m => (.error (wrapJwtError m), cachedJWK, [])
    | .ok hdr =>
      if hdr.isNull then
        (.error (wrapJwtError destructureNullMsg), cachedJWK, [])
      else
        let kid? := jsonLookup hdr "kid"
        let alg? := jsonLookup hdr "alg"
        match stage1Verify cm token jwtSecret alg? with
        | .ok payload => (.ok payload, cachedJWK, [])
        | .error _ =>
          if stage2Condition kid? alg? then
            match getJWKS fetchFn cachedJWK jwkUrl with
            | (.error e, c2, log) => (.error (wrapJwtError e), c2, log)
            | (.ok jwks, c2, log) =>
              let kidStr := jsToString (kid?.getD Json.null)
              match recordGet jwks kidStr with
              | none =>
                (.error (wrapJwtError
                  ("Invalid kid: " ++ kidStr ++ " not found in JWKS")),
                 c2, log)
              | some key =>
                match jwtVerifyModel cm token (.cryptoKey key) none with
                | .ok payload => (.ok payload, c2, log)
                | .error m => (.error (wrapJwtError m), c2, log)
          else
            (.error (wrapJwtError noUsableMsg), cachedJWK, [])

/-! ### Gateway glue (src/src/index.ts, src/src/helpers/http.ts, and the
auth helper module) -/

/-- JS `String.prototype.includes` for a non-empty search string. -/
def jsIncludes (hay needle : String) : Bool :=
  1 < (jsSplit hay needle).length

/-- The JSON error response the protected-route handler builds from a JWT
verification failure (the `error` field is the constant "Unauthorized"). -/
structure ErrorResponse where
  status : Nat
  message : String
  details : String

/-- The JWT-error classifier of src/src/index.ts lines 125-152 (duplicated
as `handleJwtVerificationError` in the auth helper module): substring
matching on the error message chooses the status and user-facing text. -/
def classifyJwtError (errDetails : String) : ErrorResponse :=
  if jsIncludes errDetails "No keys found" then
    { status := 503
      message := "Authentication configuration error"
      details := "No JWKS keys available for token verification" }
  else if jsIncludes errDetails "expired" then
    { status := 401, message := "Token expired", details := errDetails }
  else if jsIncludes errDetails "Invalid token format" then
    { status := 401, message := "Invalid token format", details := errDetails }
  else
    { status := 401, message := "Invalid or expired token", details := errDetails }

/-- `replace` with a string pattern replaces only the first occurrence:
`authHeader.replace("Bearer ", "")`. -/
def jsReplaceFirst (s pat : String) : String :=
  match jsSplit s pat with
  | [] => s
  | [_] => s
  | first :: rest => first ++ String.intercalate pat rest

/-- Token extraction of the protected-route handler
(src/src/index.ts line 97, also `verifyAuthToken` in the auth helper):
`authHeader.replace("Bearer ", "").trim()`. -/
def extractToken (authHeader : String) : String :=
  jsTrim (jsReplaceFirst authHeader "Bearer ")

/-- The header-to-verification step of the protected-route handler: a
missing header reads as `""`; an extraction result of `""` is the
missing-token 401 path (`none`), otherwise the token is handed to
`verifyJwt` (`some token`). -/
def gatewayToken (authHeader : Option String) : Option String :=
  let token := extractToken (authHeader.getD "")
  if token = "" then none else some token

/-- The claim's reading of the token extraction, stated for comparison
with the code: strip at most one leading "Bearer " scheme prefix, then
trim surrounding whitespace. -/
def claimedTokenSpec (h : String) : String :=
  jsTrim (if strLeads h "Bearer " then String.mk (h.toList.drop 7) else h)

/-- The email-masking expression used at all three logging sites
(src/src/index.ts line 119, `logJwtPayload` in the auth helper module,
and `parseAndLogRequestBody` in src/src/helpers/http.ts):
`email.replace(/^(.{3})(.*)(@.*)$/, "$1****$3")`.  The regex matches iff
the string contains no line terminator (`.` does not cross them) and its
last `@` sits at index at least 3; greediness puts the third group at that
last `@`.  On a match the result keeps the first three characters and the
suffix from the last `@`; otherwise `replace` returns the string
unchanged. -/
def lineTermChar (c : Char) : Bool :=
  c = '\n' ∨ c = '\r' ∨ c = Char.ofNat 0x2028 ∨ c = Char.ofNat 0x2029

/-- Index of the last `@` of a string, if any. -/
def lastAtIndex (s : String) : Option Nat :=
  ((s.toList.enum.filter (fun p => p.2 = '@')).getLast?).map Prod.fst

/-- The masking replace itself. -/
def maskEmail (email : String) : String :=
  match lastAtIndex email with
  | some i =>
    if 3 ≤ i ∧ ¬ email.toList.any lineTermChar then
      String.mk (email.toList.take 3) ++ "****" ++ String.mk (email.toList.drop i)
    else email
  | none => email

/-- The email line `logJwtPayload` emits for a verified payload
(src/src/index.ts lines 118-121 and the auth helper module lines 15-18):
a truthy `email` claim is stringified, masked, and logged; the function
returns the logged text. -/
def loggedEmail (payload : Json) : Option String :=
  match jsonLookup payload "email" with
  | some v => if jsTruthy v then some (maskEmail (jsToString v)) else none
  | none => none

/-- Whether an `importJWK` outcome aborts the import loop. -/
def importFails : ImportOutcome → Bool
  | .ok _ => false
  | _ => true

/-- A single failing entry anywhere in the key list makes the whole import
loop fail, whatever was already accumulated. -/
theorem importKeys_error_of_fail :
    ∀ (ks : List JWKEntry) (acc : JWKS),
      (∃ k ∈ ks, importFails k.imports = true) →
      ∃ e, importKeys ks acc = .error e := by
  intro ks
  induction ks with
  | nil =>
    intro acc h
    obtain ⟨k, hk, -⟩ := h
    cases hk
  | cons hd tl ih =>
    intro acc h
    cases hhd : hd.imports with
    | throws m => exact ⟨m, by simp [importKeys, hhd]⟩
    | notCryptoKey =>
      exact ⟨"Invalid key type returned by importJWK", by simp [importKeys, hhd]⟩
    | ok key =>
      obtain ⟨k, hk, hkf⟩ := h
      rcases List.mem_cons.mp hk with rfl | hmem
      · rw [hhd] at hkf
        simp [importFails] at hkf
      · obtain ⟨e, he⟩ := ih (recordSet acc (kidKey hd.kid) key) ⟨k, hmem, hkf⟩
        exact ⟨e, by simp [importKeys, hhd, he]⟩

/-- C8: `getJWKS` populates its cache all-or-nothing.  On any failure —
non-2xx response, missing or empty key list, or a failing import of any
single key — the call returns an error, the cached mapping stays unset,
and a subsequent call fetches again. -/
theorem getJWKS_all_or_nothing
    (f f2 : String → FetchResponse) (u u2 : String)
    (hfail : (f u).ok = false ∨ (f u).keys = none ∨ (f u).keys = some [] ∨
      ∃ ks k, (f u).keys = some ks ∧ k ∈ ks ∧ importFails k.imports = true) :
    (∃ e, getJWKS f none u = (.error e, none, [u])) ∧
      (getJWKS f2 none u2).2.2 = [u2] := by
  constructor
  · cases hok : (f u).ok with
    | false =>
      have hres : getJWKS f none u =
          (.error s!"Failed to fetch JWKS: {(f u).status} {(f u).statusText}",
           none, [u]) := by
        simp [getJWKS, hok]
      exact ⟨_, hres⟩
    | true =>
      rcases hfail with h | h | h | h
      · rw [hok] at h
        cases h
      · exact ⟨"No keys found", by simp [getJWKS, hok, h]⟩
      · exact ⟨"No keys found", by simp [getJWKS, hok, h, List.isEmpty]⟩
      · obtain ⟨ks, k, hks, hmem, hf⟩ := h
        obtain ⟨e, he⟩ := importKeys_error_of_fail ks [] ⟨k, hmem, hf⟩
        cases ks with
        | nil => cases hmem
        | cons hd tl =>
          exact ⟨e, by simp [getJWKS, hok, hks, List.isEmpty, he]⟩
  · unfold getJWKS
    cases hok : (f2 u2).ok with
    | false => simp [hok]
    | true =>
      cases hkeys : (f2 u2).keys with
      | none => simp [hok, hkeys]
      | some ks =>
        cases hks : ks.isEmpty with
        | true => simp [hok, hkeys, hks]
        | false =>
          cases him : importKeys ks [] with
          | error e => simp [hok, hkeys, hks, him]
          | ok jwks => simp [hok, hkeys, hks, him]

/-- Witness for C8: a key set whose only entry fails to import is rejected
and nothing is cached; the follow-up call fetches again. -/
theorem getJWKS_all_or_nothing_witness :
    (∃ e, getJWKS
        (fun _ => { ok := true, status := 200, statusText := "OK"
                    keys := some [{ kid := some "k1", alg := some "RS256"
                                    imports := .throws "bad key" }] })
        none "u" = (.error e, none, ["u"])) ∧
      (getJWKS
        (fun _ => { ok := true, status := 200, statusText := "OK"
                    keys := some [{ kid := some "k1", alg := some "RS256"
                                    imports := .throws "bad key" }] })
        none "u2").2.2 = ["u2"] :=
  getJWKS_all_or_nothing _ _ "u" "u2"
    (Or.inr (Or.inr (Or.inr
      ⟨[{ kid := some "k1", alg := some "RS256", imports := .throws "bad key" }],
        { kid := some "k1", alg := some "RS256", imports := .throws "bad key" },
        rfl, List.mem_singleton.mpr rfl, rfl⟩)))

end SigappGateway

namespace SigappGateway

/-! ## Claims -/

/-- C3: after one successful call to `getJWKS`, every subsequent call in
the same process returns the cached key mapping immediately, with no
network fetch, whatever fetch behaviour the network would have and
whatever `jwkUrl` argument the later call passes. -/
theorem getJWKS_cached_after_success
    (f f2 : String → FetchResponse) (c c2 : Option JWKS) (u u2 : String)
    (jwks : JWKS) (log : List String)
    (h : getJWKS f c u = (.ok jwks, c2, log)) :
    getJWKS f2 c2 u2 = (.ok jwks, c2, []) := by
  cases c with
  | some c0 =>
    simp only [getJWKS, Prod.mk.injEq, Except.ok.injEq] at h
    obtain ⟨h1, h2, -⟩ := h
    subst h1; subst h2
    rfl
  | none =>
    simp only [getJWKS] at h
    split at h
    · simp only [Prod.mk.injEq] at h
      exact absurd h.1 (by simp)
    · split at h
      · simp only [Prod.mk.injEq] at h
        exact absurd h.1 (by simp)
      · split at h
        · simp only [Prod.mk.injEq] at h
          exact absurd h.1 (by simp)
        · split at h
          · simp only [Prod.mk.injEq] at h
            exact absurd h.1 (by simp)
          · simp only [Prod.mk.injEq, Except.ok.injEq] at h
            obtain ⟨h1, h2, -⟩ := h
            subst h1; subst h2
            rfl

/-- Witness for C3 at a concrete first call: a successful fetch populates
the cache and a second call with an unreachable network still succeeds. -/
theorem getJWKS_cached_after_success_witness :
    getJWKS
      (fun _ => { ok := false, status := 500, statusText := "ERR", keys := none })
      (some [("k1", 7)]) "urlB"
      = (.ok [("k1", 7)], some [("k1", 7)], []) :=
  getJWKS_cached_after_success
    (fun _ => { ok := true, status := 200, statusText := "OK"
                keys := some [{ kid := some "k1", alg := some "RS256", imports := .ok 7 }] })
    (fun _ => { ok := false, status := 500, statusText := "ERR", keys := none })
    none (some [("k1", 7)]) "urlA" "urlB" [("k1", 7)] ["urlA"] rfl

/-- C6: a key-set response with a missing or empty `keys` array makes
`getJWKS` fail with the "No keys found" error, and the gateway JWT error
handler maps that failure (as re-wrapped by `verifyJwt`) to an HTTP 503
response rather than a 401. -/
theorem getJWKS_no_keys_maps_to_503
    (f : String → FetchResponse) (u : String)
    (hok : (f u).ok = true)
    (hkeys : (f u).keys = none ∨ (f u).keys = some []) :
    getJWKS f none u = (.error "No keys found", none, [u]) ∧
      classifyJwtError (wrapJwtError "No keys found") =
        { status := 503
          message := "Authentication configuration error"
          details := "No JWKS keys available for token verification" } ∧
      (classifyJwtError (wrapJwtError "No keys found")).status ≠ 401 := by
  refine ⟨?_, rfl, by decide⟩
  rcases hkeys with h | h
  · simp [getJWKS, hok, h]
  · simp [getJWKS, hok, h, List.isEmpty]

/-- Witness for C6: a 200 response whose body has an empty `keys` array. -/
theorem getJWKS_no_keys_maps_to_503_witness :
    getJWKS (fun _ => { ok := true, status := 200, statusText := "OK", keys := some [] })
        none "u" = (.error "No keys found", none, ["u"]) ∧
      classifyJwtError (wrapJwtError "No keys found") =
        { status := 503
          message := "Authentication configuration error"
          details := "No JWKS keys available for token verification" } ∧
      (classifyJwtError (wrapJwtError "No keys found")).status ≠ 401 :=
  getJWKS_no_keys_maps_to_503
    (fun _ => { ok := true, status := 200, statusText := "OK", keys := some [] })
    "u" rfl (Or.inr rfl)

/-- C7: when stage 1 fails and stage 2 is not applicable — the header
declares `HS256`, or carries no key identifier — `verifyJwt` fails with
the distinct terminal message of src/src/jwt.ts line 152 (the spec's
`NoUsableVerificationMethod`), making no fetch and no retry. -/
theorem verifyJwt_no_usable_method
    (cm : CryptoModel) (f : String → FetchResponse) (cache : Option JWKS)
    (token jwkUrl secret hb : String) (rest : List String)
    (hf : List (String × Json)) (e : String)
    (hsplit : jsSplit token "." = hb :: rest)
    (hne : hb ≠ "")
    (hhdr : decodeB64urlJson hb = .ok (Json.obj hf))
    (h1 : stage1Verify cm token secret (recordGet hf "alg") = .error e)
    (hcond : recordGet hf "alg" = some (Json.str "HS256") ∨
      recordGet hf "kid" = none) :
    verifyJwt cm f cache token jwkUrl secret =
      (.error (wrapJwtError noUsableMsg), cache, []) := by
  have hgate : stage2Condition (recordGet hf "kid") (recordGet hf "alg") = false := by
    rcases hcond with h | h
    · simp [stage2Condition, h, jsStrictEqStr]
    · simp [stage2Condition, h, jsTruthyOpt]
  simp [verifyJwt, hsplit, hne, hhdr, Json.isNull, jsonLookup, h1, hgate]

/-- Witness for C7: an HS256 token whose shared-secret check fails (wrong
secret) ends on the terminal error without touching the network. -/
theorem verifyJwt_no_usable_method_witness :
    verifyJwt
      { hsSigOk := fun _ _ => false, pkSigOk := fun _ _ => false, now := 10 }
      (fun _ => { ok := true, status := 200, statusText := "OK", keys := some [] })
      none "eyJhbGciOiJIUzI1NiJ9.eyJleHAiOjk5fQ.sig" "u" "sec" =
      (.error (wrapJwtError noUsableMsg), none, []) :=
  verifyJwt_no_usable_method
    { hsSigOk := fun _ _ => false, pkSigOk := fun _ _ => false, now := 10 }
    (fun _ => { ok := true, status := 200, statusText := "OK", keys := some [] })
    none "eyJhbGciOiJIUzI1NiJ9.eyJleHAiOjk5fQ.sig" "u" "sec"
    "eyJhbGciOiJIUzI1NiJ9" ["eyJleHAiOjk5fQ", "sig"]
    [("alg", Json.str "HS256")] joseSigFailMsg
    rfl (by decide) rfl rfl (Or.inl rfl)

/-- C1: a token whose first segment decodes to a header declaring an HS
algorithm, whose signature verifies under the shared secret, and whose
`exp` lies in the future, is accepted by stage 1: `verifyJwt` returns
exactly the decoded payload object, the key cache is untouched and no
request to the JWKS URL is made. -/
theorem verifyJwt_hs_success
    (cm : CryptoModel) (f : String → FetchResponse) (cache : Option JWKS)
    (token jwkUrl secret h p sg alg : String)
    (hf pf : List (String × Json)) (e : Int)
    (hsplit : jsSplit token "." = [h, p, sg])
    (hne : h ≠ "")
    (hhdr : decodeB64urlJson h = .ok (Json.obj hf))
    (halg : recordGet hf "alg" = some (Json.str alg))
    (halgne : alg ≠ "")
    (hhs : strLeads alg "HS" = true)
    (hpay : decodeB64urlJson p = .ok (Json.obj pf))
    (hexp : recordGet pf "exp" = some (Json.num e))
    (hfut : cm.now < e)
    (hsig : cm.hsSigOk token secret = true) :
    verifyJwt cm f cache token jwkUrl secret =
      (.ok (Json.obj pf), cache, []) := by
  have hstage1 : stage1Verify cm token secret (some (Json.str alg)) =
      .ok (Json.obj pf) := by
    simp [stage1Verify, algorithmsOption, jsTruthy, halgne, jwtVerifyModel,
      hsplit, hhdr, joseHeaderAlg, halg, joseSigStep, hhs, hsig,
      josePayloadStep, hpay, joseValidateClaims, hexp,
      show ¬ e ≤ cm.now from not_le.mpr hfut, List.contains]
  simp [verifyJwt, hsplit, hne, hhdr, Json.isNull, jsonLookup, halg, hstage1]

/-- Witness for C1: the end-to-end scenario of spec §8 — an HS256 token
with payload sub "u1", exp 99, checked at time 10 against an unreachable
key endpoint, returns the payload without any fetch. -/
theorem verifyJwt_hs_success_witness :
    verifyJwt
      { hsSigOk := fun _ _ => true, pkSigOk := fun _ _ => false, now := 10 }
      (fun _ => { ok := false, status := 500, statusText := "ERR", keys := none })
      none "eyJhbGciOiJIUzI1NiJ9.eyJzdWIiOiJ1MSIsImV4cCI6OTl9.sig" "u" "s3cr3t" =
      (.ok (Json.obj [("sub", Json.str "u1"), ("exp", Json.num 99)]), none, []) :=
  verifyJwt_hs_success
    { hsSigOk := fun _ _ => true, pkSigOk := fun _ _ => false, now := 10 }
    (fun _ => { ok := false, status := 500, statusText := "ERR", keys := none })
    none "eyJhbGciOiJIUzI1NiJ9.eyJzdWIiOiJ1MSIsImV4cCI6OTl9.sig" "u" "s3cr3t"
    "eyJhbGciOiJIUzI1NiJ9" "eyJzdWIiOiJ1MSIsImV4cCI6OTl9" "sig" "HS256"
    [("alg", Json.str "HS256")] [("sub", Json.str "u1"), ("exp", Json.num 99)] 99
    rfl (by decide) rfl rfl (by decide) rfl rfl rfl (by decide) rfl

/-- C2 counterexample: stage 2 can be attempted although the header
declares no algorithm at all.  The header of this token is the object
with a `kid` and no `alg`; stage 1 fails (jose finds no `alg`), and
because the gate only tests `alg !== "HS256"` — which an absent `alg`
satisfies — the key set is fetched: the fetch log of the call is
non-empty. -/
theorem stage2_attempted_without_declared_alg :
    (verifyJwt
      { hsSigOk := fun _ _ => false, pkSigOk := fun _ _ => true, now := 10 }
      (fun _ => { ok := true, status := 200, statusText := "OK"
                  keys := some [{ kid := some "other", alg := some "RS256"
                                  imports := .ok 7 }] })
      none "eyJraWQiOiJrMSJ9.e30.sig" "u" "sec").2.2 = ["u"] ∧
    decodeB64urlJson "eyJraWQiOiJrMSJ9" =
      .ok (Json.obj [("kid", Json.str "k1")]) ∧
    recordGet [("kid", Json.str "k1")] "alg" = (none : Option Json) :=
  ⟨rfl, rfl, rfl⟩

/-- C2 as amended: the key-set fetch of stage 2 is reached only when
stage 1 failed and the gate `kid && alg !== "HS256"` holds (an absent
algorithm also passes the gate); a successful stage 1 or a failing gate
makes no fetch; and when stage 2 runs and the fetched key set has no
entry for the declared `kid`, `verifyJwt` fails with the
`Invalid kid ... not found in JWKS` error (the spec's `KeyNotFound`). -/
theorem verifyJwt_stage2_gate
    (cm : CryptoModel) (f : String → FetchResponse) (cache : Option JWKS)
    (token jwkUrl secret hb : String) (rest : List String)
    (hf : List (String × Json))
    (hsplit : jsSplit token "." = hb :: rest)
    (hne : hb ≠ "")
    (hhdr : decodeB64urlJson hb = .ok (Json.obj hf)) :
    (∀ pay, stage1Verify cm token secret (recordGet hf "alg") = .ok pay →
      verifyJwt cm f cache token jwkUrl secret = (.ok pay, cache, [])) ∧
    (stage2Condition (recordGet hf "kid") (recordGet hf "alg") = false →
      (verifyJwt cm f cache token jwkUrl secret).2.2 = []) ∧
    (∀ e k jwks c2 log,
      stage1Verify cm token secret (recordGet hf "alg") = .error e →
      recordGet hf "kid" = some (Json.str k) →
      stage2Condition (recordGet hf "kid") (recordGet hf "alg") = true →
      getJWKS f cache jwkUrl = (.ok jwks, c2, log) →
      recordGet jwks k = none →
      verifyJwt cm f cache token jwkUrl secret =
        (.error (wrapJwtError ("Invalid kid: " ++ k ++ " not found in JWKS")),
         c2, log)) := by
  refine ⟨?_, ?_, ?_⟩
  · intro pay h1
    simp [verifyJwt, hsplit, hne, hhdr, Json.isNull, jsonLookup, h1]
  · intro hgate
    cases h1 : stage1Verify cm token secret (recordGet hf "alg") with
    | ok pay => simp [verifyJwt, hsplit, hne, hhdr, Json.isNull, jsonLookup, h1]
    | error e => simp [verifyJwt, hsplit, hne, hhdr, Json.isNull, jsonLookup, h1, hgate]
  · intro e k jwks c2 log h1 hkid hgate hjwks hmiss
    rw [hkid] at hgate
    simp [verifyJwt, hsplit, hne, hhdr, Json.isNull, jsonLookup, h1, hkid,
      hgate, hjwks, hmiss, jsToString]

/-- Witness for C2 as amended: the key-not-found branch at a concrete
RS256 token whose `kid` "k1" is absent from the fetched key set. -/
theorem verifyJwt_stage2_gate_witness :
    verifyJwt
      { hsSigOk := fun _ _ => false, pkSigOk := fun _ _ => true, now := 10 }
      (fun _ => { ok := true, status := 200, statusText := "OK"
                  keys := some [{ kid := some "other", alg := some "RS256"
                                  imports := .ok 7 }] })
      none "eyJhbGciOiJSUzI1NiIsImtpZCI6ImsxIn0.e30.sig" "u" "sec" =
      (.error (wrapJwtError "Invalid kid: k1 not found in JWKS"),
       some [("other", 7)], ["u"]) :=
  (verifyJwt_stage2_gate
    { hsSigOk := fun _ _ => false, pkSigOk := fun _ _ => true, now := 10 }
    (fun _ => { ok := true, status := 200, statusText := "OK"
                keys := some [{ kid := some "other", alg := some "RS256"
                                imports := .ok 7 }] })
    none "eyJhbGciOiJSUzI1NiIsImtpZCI6ImsxIn0.e30.sig" "u" "sec"
    "eyJhbGciOiJSUzI1NiIsImtpZCI6ImsxIn0" ["e30", "sig"]
    [("alg", Json.str "RS256"), ("kid", Json.str "k1")]
    rfl (by decide) rfl).2.2
    joseKeyTypeMsg "k1" [("other", 7)] (some [("other", 7)]) ["u"]
    rfl rfl rfl rfl rfl

/-- C4: the code loses the expiry signal for shared-secret tokens.  For an
expired token declaring HS256 whose signature is valid under the shared
secret (checked at time 10 against exp 5, so jose claim validation fails
on `exp`), `verifyJwt` swallows the stage-1 error and — since the header
declares HS256, stage 2 is barred — replaces it with the generic
`Token verification failed. Ensure the SUPABASE_ANON_KEY is correct.`
message; the gateway classifier then returns the generic 401
`Invalid or expired token`, never the specific `Token expired`
response the spec promises. -/
theorem expired_hs_token_gets_generic_401 :
    verifyJwt
      { hsSigOk := fun _ _ => true, pkSigOk := fun _ _ => false, now := 10 }
      (fun _ => { ok := false, status := 500, statusText := "ERR", keys := none })
      none "eyJhbGciOiJIUzI1NiJ9.eyJleHAiOjV9.sig" "u" "sec" =
      (.error (wrapJwtError noUsableMsg), none, []) ∧
    joseValidateClaims 10 (Json.obj [("exp", Json.num 5)]) =
      .error joseExpFailMsg ∧
    classifyJwtError (wrapJwtError noUsableMsg) =
      { status := 401, message := "Invalid or expired token"
        details := wrapJwtError noUsableMsg } ∧
    (classifyJwtError (wrapJwtError noUsableMsg)).message ≠ "Token expired" :=
  ⟨rfl, rfl, rfl, by decide⟩

/-- C5 counterexample: a token whose first segment decodes to the
non-JSON text "notjson" fails fast, but its error message is the JSON
parse error, not `Invalid token format`, so the gateway returns the
generic 401 `Invalid or expired token` rather than the
`Invalid token format` response the claim promises. -/
theorem nonjson_header_not_invalid_format_response :
    verifyJwt
      { hsSigOk := fun _ _ => true, pkSigOk := fun _ _ => true, now := 10 }
      (fun _ => { ok := true, status := 200, statusText := "OK", keys := some [] })
      none "bm90anNvbg.e30.x" "u" "sec" =
      (.error (wrapJwtError jsonParseErrMsg), none, []) ∧
    atobDecode (jsB64urlNormalize "bm90anNvbg") = .ok "notjson" ∧
    classifyJwtError (wrapJwtError jsonParseErrMsg) =
      { status := 401, message := "Invalid or expired token"
        details := wrapJwtError jsonParseErrMsg } ∧
    (classifyJwtError (wrapJwtError jsonParseErrMsg)).message ≠
      "Invalid token format" :=
  ⟨rfl, rfl, rfl, by decide⟩

/-- C5 as amended: a token with a missing first dot-separated segment
fails immediately with `Invalid token format`, which the gateway maps to
the specific `Invalid token format` 401 response; a first segment that
fails base64url/JSON decoding also fails immediately; in both cases no
network request is made (the fetch log is empty). -/
theorem malformed_token_fails_fast
    (cm : CryptoModel) (f : String → FetchResponse) (cache : Option JWKS)
    (token jwkUrl secret hb m : String) (rest : List String)
    (hsplit : jsSplit token "." = hb :: rest) :
    (hb = "" →
      verifyJwt cm f cache token jwkUrl secret =
        (.error (wrapJwtError "Invalid token format"), cache, []) ∧
      classifyJwtError (wrapJwtError "Invalid token format") =
        { status := 401, message := "Invalid token format"
          details := wrapJwtError "Invalid token format" }) ∧
    (hb ≠ "" → decodeB64urlJson hb = .error m →
      verifyJwt cm f cache token jwkUrl secret =
        (.error (wrapJwtError m), cache, [])) := by
  constructor
  · intro hemp
    subst hemp
    exact ⟨by simp [verifyJwt, hsplit], rfl⟩
  · intro hne hdec
    simp [verifyJwt, hsplit, hne, hdec]

/-- Witness for C5 as amended, at a token whose first segment is empty:
the call fails with the `Invalid token format` message, mapped to the
specific 401 response, and no fetch happens. -/
theorem malformed_token_fails_fast_witness :
    verifyJwt
      { hsSigOk := fun _ _ => true, pkSigOk := fun _ _ => true, now := 10 }
      (fun _ => { ok := true, status := 200, statusText := "OK", keys := some [] })
      none ".x.y" "u" "sec" =
      (.error (wrapJwtError "Invalid token format"), none, []) ∧
    classifyJwtError (wrapJwtError "Invalid token format") =
      { status := 401, message := "Invalid token format"
        details := wrapJwtError "Invalid token format" } :=
  (malformed_token_fails_fast
    { hsSigOk := fun _ _ => true, pkSigOk := fun _ _ => true, now := 10 }
    (fun _ => { ok := true, status := 200, statusText := "OK", keys := some [] })
    none ".x.y" "u" "sec" "" "m" ["x", "y"] rfl).1 rfl

/-- A list always leads with itself (followed by anything). -/
theorem hasLead_append_self (p rest : List Char) :
    hasLead (p ++ rest) p = true := by
  induction p with
  | nil =>
    show hasLead rest [] = true
    cases rest <;> rfl
  | cons c cs ih => simp [hasLead, ih]

/-- `splitListAux` ignores its fuel as long as the fuel exceeds the input
length (each step strictly shortens the input). -/
theorem splitListAux_fuel_eq :
    ∀ (n : Nat) (cs acc pat : List Char) (f g : Nat), cs.length ≤ n →
      pat ≠ [] → cs.length < f → cs.length < g →
      splitListAux f cs acc pat = splitListAux g cs acc pat := by
  intro n
  induction n with
  | zero =>
    intro cs acc pat f g hn hp hf hg
    have hcs : cs = [] := List.length_eq_zero.mp (Nat.le_zero.mp hn)
    subst hcs
    match f, hf, g, hg with
    | f + 1, _, g + 1, _ =>
      cases pat with
      | nil => exact absurd rfl hp
      | cons q qs => simp [splitListAux, hasLead]
  | succ n ih =>
    intro cs acc pat f g hn hp hf hg
    match f, hf, g, hg with
    | f + 1, hf, g + 1, hg =>
      have hcsne : hasLead cs pat = true → cs ≠ [] := by
        intro hl
        cases pat with
        | nil => exact absurd rfl hp
        | cons q qs =>
          cases cs with
          | nil => simp [hasLead] at hl
          | cons c cs' => simp
      cases hl : hasLead cs pat with
      | true =>
        have hlen : (cs.drop pat.length).length < cs.length := by
          have h1 : 0 < pat.length := List.length_pos.mpr hp
          have h2 : 0 < cs.length := List.length_pos.mpr (hcsne hl)
          simp only [List.length_drop]
          omega
        simp only [splitListAux, hl, if_true]
        rw [ih (cs.drop pat.length) [] pat f g (by omega) hp (by omega) (by omega)]
      | false =>
        cases cs with
        | nil => simp [splitListAux, hl]
        | cons c rest =>
          simp only [splitListAux, hl]
          have hrn : rest.length ≤ n := by
            simp only [List.length_cons] at hn
            omega
          have hrf : rest.length < f := by
            simp only [List.length_cons] at hf
            omega
          have hrg : rest.length < g := by
            simp only [List.length_cons] at hg
            omega
          simpa using ih rest (c :: acc) pat f g hrn hp hrf hrg

/-- When the pattern occurs nowhere in the input, the splitting worker
returns the single chunk `acc.reverse ++ cs`. -/
theorem splitListAux_no_occ :
    ∀ (f : Nat) (cs acc pat : List Char), pat ≠ [] → cs.length < f →
      (∀ n, hasLead (cs.drop n) pat = false) →
      splitListAux f cs acc pat = [acc.reverse ++ cs] := by
  intro f
  induction f with
  | zero =>
    intro cs acc pat hp hlt
    exact absurd hlt (Nat.not_lt_zero _)
  | succ f ih =>
    intro cs acc pat hp hlt hno
    have h0 : hasLead cs pat = false := by simpa using hno 0
    cases cs with
    | nil => simp [splitListAux, h0]
    | cons c rest =>
      have hr : ∀ n, hasLead (rest.drop n) pat = false := fun n => by
        simpa using hno (n + 1)
      have hrf : rest.length < f := by
        simp only [List.length_cons] at hlt
        omega
      simp [splitListAux, h0, ih rest (c :: acc) pat hp hrf hr]

/-- `s.split(sep)` is `[s]` when the separator occurs nowhere in `s`. -/
theorem jsSplit_eq_self_of_no_occ (s pat : String) (hp : pat.toList ≠ [])
    (hno : ∀ n, hasLead (s.toList.drop n) pat.toList = false) :
    jsSplit s pat = [s] := by
  unfold jsSplit
  have hlen : s.toList.length < s.length + 1 := by
    have : s.toList.length = s.length := rfl
    omega
  rw [splitListAux_no_occ (s.length + 1) s.toList [] pat.toList hp hlen hno]
  rfl

/-- Splitting a string that begins with the separator yields a leading
empty chunk followed by the split of the remainder. -/
theorem jsSplit_append_head (pat t : String) (hp : pat.toList ≠ []) :
    jsSplit (pat ++ t) pat = "" :: jsSplit t pat := by
  show (splitListAux ((pat ++ t).length + 1) (pat.toList ++ t.toList) []
      pat.toList).map String.mk = "" :: jsSplit t pat
  have hlen : (pat ++ t).length = pat.length + t.length := by
    simp [String.length_append]
  have hp1 : 0 < pat.length := by
    have : pat.toList.length = pat.length := rfl
    have := List.length_pos.mpr hp
    omega
  rw [hlen]
  have hstep : splitListAux (pat.length + t.length + 1)
      (pat.toList ++ t.toList) [] pat.toList =
      [] :: splitListAux (pat.length + t.length)
        ((pat.toList ++ t.toList).drop pat.toList.length) [] pat.toList := by
    cases hplt : pat.length + t.length with
    | zero => omega
    | succ m =>
      simp [splitListAux, hasLead_append_self]
  rw [hstep]
  have hdrop : (pat.toList ++ t.toList).drop pat.toList.length = t.toList :=
    List.drop_left pat.toList t.toList
  rw [hdrop]
  have htlen : t.toList.length = t.length := rfl
  rw [splitListAux_fuel_eq t.toList.length t.toList [] pat.toList
    (pat.length + t.length) (t.length + 1) (by omega) hp (by omega) (by omega)]
  rfl

/-- A run of pure whitespace contains no occurrence of "Bearer ". -/
theorem no_bearer_in_ws (h : String)
    (hws : ∀ c ∈ h.toList, jsWsChar c = true) :
    ∀ n, hasLead (h.toList.drop n) "Bearer ".toList = false := by
  intro n
  cases hd : h.toList.drop n with
  | nil => rfl
  | cons c rest =>
    have hc : c ∈ h.toList :=
      List.drop_subset n h.toList (hd ▸ List.mem_cons_self c rest)
    have hcw := hws c hc
    have hcb : c ≠ 'B' := by
      intro hcB
      subst hcB
      simp [jsWsChar] at hcw
    simp [hasLead, hcb]

/-- All-whitespace strings trim to the empty string. -/
theorem jsTrim_all_ws (h : String)
    (hws : ∀ c ∈ h.toList, jsWsChar c = true) :
    jsTrim h = "" := by
  have hdw : h.data.dropWhile jsWsChar = [] :=
    List.dropWhile_eq_nil_iff.mpr hws
  show String.mk ((
    (h.data.dropWhile jsWsChar).reverse.dropWhile jsWsChar).reverse) = ""
  rw [hdw]
  rfl

/-- C10 counterexample: the code removes the first occurrence of the
substring "Bearer " anywhere in the header, not only a leading scheme
prefix.  For the header "xBearer t" the claim's reading leaves the value
untouched (it has no leading "Bearer "), but the code hands "xt" to
verification. -/
theorem bearer_removed_from_middle :
    extractToken "xBearer t" = "xt" ∧
    claimedTokenSpec "xBearer t" = "xBearer t" ∧
    ("xt" : String) ≠ "xBearer t" :=
  ⟨rfl, rfl, by decide⟩

/-- C10 as amended: the token handed to verification is the Authorization
header with the first occurrence of the substring "Bearer " (anywhere)
removed, then trimmed.  Consequently a bare token without the scheme is
accepted and verified identically to one with the scheme (whenever the
token text itself does not contain "Bearer "), and an absent header, a
bare "Bearer " header, or an all-whitespace header takes the
missing-token 401 path with no verification attempt. -/
theorem gateway_token_extraction
    (t h : String)
    (hno : ∀ n, hasLead (t.toList.drop n) "Bearer ".toList = false)
    (hws : ∀ c ∈ h.toList, jsWsChar c = true) :
    gatewayToken (some ("Bearer " ++ t)) = gatewayToken (some t) ∧
    extractToken ("Bearer " ++ t) = jsTrim t ∧
    extractToken t = jsTrim t ∧
    gatewayToken none = none ∧
    gatewayToken (some "Bearer ") = none ∧
    gatewayToken (some h) = none := by
  have hpne : ("Bearer " : String).toList ≠ [] := by decide
  have hsplitT : jsSplit t "Bearer " = [t] :=
    jsSplit_eq_self_of_no_occ t "Bearer " hpne hno
  have hbare : extractToken t = jsTrim t := by
    simp [extractToken, jsReplaceFirst, hsplitT]
  have hpre : extractToken ("Bearer " ++ t) = jsTrim t := by
    have hsp : jsSplit ("Bearer " ++ t) "Bearer " = ["", t] := by
      rw [jsSplit_append_head "Bearer " t hpne, hsplitT]
    simp [extractToken, jsReplaceFirst, hsp, String.intercalate,
      String.intercalate.go]
  have hwsplit : jsSplit h "Bearer " = [h] :=
    jsSplit_eq_self_of_no_occ h "Bearer " hpne (no_bearer_in_ws h hws)
  refine ⟨?_, hpre, hbare, rfl, rfl, ?_⟩
  · simp [gatewayToken, hpre, hbare]
  · simp [gatewayToken, extractToken, jsReplaceFirst, hwsplit,
      jsTrim_all_ws h hws]

/-- Witness for C10 as amended at the token "tok" and the all-whitespace
header of three spaces. -/
theorem gateway_token_extraction_witness :
    gatewayToken (some ("Bearer " ++ "tok")) = gatewayToken (some "tok") ∧
    extractToken ("Bearer " ++ "tok") = jsTrim "tok" ∧
    extractToken "tok" = jsTrim "tok" ∧
    gatewayToken none = none ∧
    gatewayToken (some "Bearer ") = none ∧
    gatewayToken (some "   ") = none :=
  gateway_token_extraction "tok" "   "
    (by intro n; rcases n with _ | _ | _ | _ | n <;> rfl)
    (by decide)

/-- C9 counterexample: an email whose local part has fewer than three
characters does not match the masking regex, so `replace` returns it
unchanged and the gateway logs the full, unmasked address. -/
theorem short_email_logged_unmasked :
    loggedEmail (Json.obj [("email", Json.str "ab@cd.com")]) =
      some "ab@cd.com" ∧
    maskEmail "ab@cd.com" = "ab@cd.com" :=
  ⟨rfl, rfl⟩

/-- C9 as amended: every truthy `email` claim is logged through the
masking replace; the replace masks (keeping the first three characters
and the suffix from the last `@`, with "****" in between) exactly when
the string has no line terminator and its last `@` sits at index at
least 3; otherwise — no `@`, or every `@` before index 3 — the email is
logged unchanged. -/
theorem maskEmail_logging (s : String) :
    (s ≠ "" → loggedEmail (Json.obj [("email", Json.str s)]) =
      some (maskEmail s)) ∧
    (∀ i, lastAtIndex s = some i → 3 ≤ i →
      s.toList.any lineTermChar = false →
      maskEmail s =
        String.mk (s.toList.take 3) ++ "****" ++ String.mk (s.toList.drop i)) ∧
    (lastAtIndex s = none → maskEmail s = s) ∧
    (∀ i, lastAtIndex s = some i → i < 3 → maskEmail s = s) := by
  refine ⟨?_, ?_, ?_, ?_⟩
  · intro hne
    simp [loggedEmail, jsonLookup, recordGet, jsTruthy, hne, jsToString]
  · intro i hi h3 hnl
    have hcond : 3 ≤ i ∧ ¬ s.toList.any lineTermChar = true :=
      ⟨h3, by rw [hnl]; simp⟩
    simp only [maskEmail, hi]
    rw [if_pos hcond]
  · intro hi
    simp [maskEmail, hi]
  · intro i hi hlt
    have : ¬ 3 ≤ i := by omega
    simp [maskEmail, hi, this]

/-- Witness for C9 as amended, at "alice@example.com" (last `@` at
index 5): the logged value is the masked form. -/
theorem maskEmail_logging_witness :
    loggedEmail (Json.obj [("email", Json.str "alice@example.com")]) =
      some (maskEmail "alice@example.com") ∧
    maskEmail "alice@example.com" = "ali****@example.com" :=
  ⟨(maskEmail_logging "alice@example.com").1 (by decide),
   by rw [(maskEmail_logging "alice@example.com").2.1 5 rfl (by decide) rfl]; rfl⟩

end SigappGateway
